import Mathlib

/-!
# Verification of the xsv `stats` command (src/cmd/stats.rs)

A shallow embedding of the column-statistics engine of `xsv stats`:
type inference over byte samples, the `FieldType` join lattice, the
per-column `Stats` aggregate with its `add`, `merge` and `to_record`
operations, and the row-chunking arithmetic of the parallel strategy.

Modelling conventions:
* byte strings are `List Nat` (each entry one byte);
* `f64` values are modelled as exact fractions (`F64`, kept normalized, so
  structural equality is value equality); the non-finite literals
  (`inf`, `NaN`) are outside the model, and the standard-library numeric
  parsers `from_str::<i64>` / `from_str::<f64>` are modelled as executable
  functions over decoded code points;
* output record fields are modelled pre-rendering by the inductive `Piece`
  (a fraction stands for the decimal text of the number, `Piece.sqrtNum v`
  for the text of the square root of `v`, `Piece.bytes` for lossily decoded
  byte strings);
* the components taken from the external `stats` crate (`OnlineStats`,
  `MinMax`, `Unsorted`, `Commute for Option`) and from `src/util.rs`
  (`num_of_chunks`), whose sources are not part of this tree, are modelled
  from the specification and carry a `Modelled from the spec:` doc comment;
* `unwrap()` on parses that the safety claim shows infallible is modelled
  with `Option.getD 0`;
* panics (`assert_eq!` in `Commute for WhichStats`, `unreachable!()` in
  `TypedMinMax`) are modelled by `Option` results or, for branches proved
  dead, by a `none` placeholder.
-/

/-- A raw CSV field: a sequence of bytes. -/
abbrev ByteStr := List Nat

/-- Euclid's algorithm with explicit fuel, so that it reduces inside the
kernel. -/
def gcdFuel : Nat → Nat → Nat → Nat
  | 0, _, b => b
  | _ + 1, 0, b => b
  | f + 1, a + 1, b => gcdFuel f (b % (a + 1)) (a + 1)

/-- Greatest common divisor (enough fuel for Euclid to finish). -/
def natGcd (a b : Nat) : Nat := gcdFuel (a + b + 1) a b

/-- A finite `f64` value, modelled as an exact fraction.  All constructors
below keep the fraction normalized (coprime, positive denominator), so
structural equality coincides with value equality. -/
structure F64 where
  num : Int
  den : Nat
deriving DecidableEq

/-- Normalize a fraction (denominator expected positive). -/
def F64.norm (n : Int) (d : Nat) : F64 :=
  let g := natGcd n.natAbs d
  if g = 0 then ⟨0, 1⟩
  else ⟨if n < 0 then -((n.natAbs / g : Nat) : Int) else ((n.natAbs / g : Nat) : Int), d / g⟩

/-- Embed a natural number. -/
def F64.ofNat (n : Nat) : F64 := ⟨n, 1⟩

/-- Embed an integer. -/
def F64.ofInt (n : Int) : F64 := ⟨n, 1⟩

/-- Exact addition. -/
def F64.add (a b : F64) : F64 := F64.norm (a.num * b.den + b.num * a.den) (a.den * b.den)

/-- Exact negation. -/
def F64.neg (a : F64) : F64 := ⟨-a.num, a.den⟩

/-- Exact subtraction. -/
def F64.sub (a b : F64) : F64 := a.add b.neg

/-- Exact multiplication. -/
def F64.mul (a b : F64) : F64 := F64.norm (a.num * b.num) (a.den * b.den)

/-- Reciprocal; the reciprocal of zero is zero (only reached where a claim
or the rendering convention tolerates it). -/
def F64.inv (a : F64) : F64 :=
  if a.num < 0 then ⟨-(a.den : Int), a.num.natAbs⟩
  else if a.num = 0 then ⟨0, 1⟩
  else ⟨(a.den : Int), a.num.natAbs⟩

/-- Exact division. -/
def F64.div (a b : F64) : F64 := a.mul b.inv

/-- Ordering on fractions. -/
def F64.le (a b : F64) : Bool := decide (a.num * (b.den : Int) ≤ b.num * (a.den : Int))

/-- The power of ten `10 ^ e` as a fraction. -/
def F64.pow10 (e : Nat) : F64 := ⟨((10 ^ e : Nat) : Int), 1⟩

/-- Truncation toward zero (the Rust `as i64` cast for in-range values). -/
def F64.trunc (a : F64) : Int :=
  if a.num < 0 then -((a.num.natAbs / a.den : Nat) : Int) else ((a.num.natAbs / a.den : Nat) : Int)

/-- Is a continuation byte of a UTF-8 multi-byte sequence (`0x80..0xBF`). -/
def isCont (b : Nat) : Bool := 128 ≤ b && b ≤ 191

/-- Model of `str::from_utf8`: strict UTF-8 validation, returning the decoded
code points (overlong encodings, surrogates and out-of-range values are
rejected). -/
def utf8Decode : List Nat → Option (List Nat)
  | [] => some []
  | b1 :: r =>
    if b1 ≤ 127 then
      (utf8Decode r).map (fun cs => b1 :: cs)
    else
      match r with
      | [] => none
      | b2 :: r2 =>
        if 194 ≤ b1 && b1 ≤ 223 then
          if isCont b2 then
            (utf8Decode r2).map (fun cs => ((b1 - 192) * 64 + (b2 - 128)) :: cs)
          else none
        else
          match r2 with
          | [] => none
          | b3 :: r3 =>
            if 224 ≤ b1 && b1 ≤ 239 then
              let lowOk : Bool :=
                if b1 = 224 then 160 ≤ b2 && b2 ≤ 191
                else if b1 = 237 then 128 ≤ b2 && b2 ≤ 159
                else isCont b2
              if lowOk && isCont b3 then
                (utf8Decode r3).map
                  (fun cs => ((b1 - 224) * 4096 + (b2 - 128) * 64 + (b3 - 128)) :: cs)
              else none
            else
              match r3 with
              | [] => none
              | b4 :: r4 =>
                if 240 ≤ b1 && b1 ≤ 244 then
                  let lowOk : Bool :=
                    if b1 = 240 then 144 ≤ b2 && b2 ≤ 191
                    else if b1 = 244 then 128 ≤ b2 && b2 ≤ 143
                    else isCont b2
                  if lowOk && isCont b3 && isCont b4 then
                    (utf8Decode r4).map
                      (fun cs => ((b1 - 240) * 262144 + (b2 - 128) * 4096
                                  + (b3 - 128) * 64 + (b4 - 128)) :: cs)
                  else none
                else none

/-- ASCII decimal digit, as a code point. -/
def isDigitCp (c : Nat) : Bool := 48 ≤ c && c ≤ 57

/-- Numeric value of a string of ASCII digits. -/
def digitsToNat (ds : List Nat) : Nat := ds.foldl (fun acc c => acc * 10 + (c - 48)) 0

/-- Strip one leading sign character, reporting whether it was a minus. -/
def stripSign : List Nat → Bool × List Nat
  | 43 :: r => (false, r)
  | 45 :: r => (true, r)
  | r => (false, r)

/-- Model of `from_str::<i64>` on decoded code points: optional sign, one or
more digits, value within the `i64` range. -/
def i64FromCp (cs : List Nat) : Option Int :=
  let p := stripSign cs
  if p.2.isEmpty then none
  else if p.2.all isDigitCp then
    let m : Int := digitsToNat p.2
    let v : Int := if p.1 then -m else m
    if -(2 ^ 63) ≤ v ∧ v ≤ 2 ^ 63 - 1 then some v else none
  else none

/-- Scale a mantissa by a signed power of ten. -/
def applyExp (m : F64) (e : Int) : F64 :=
  if 0 ≤ e then m.mul (F64.pow10 e.toNat) else m.div (F64.pow10 (-e).toNat)

/-- The exponent suffix of a float literal: either nothing, or `e`/`E`
followed by an optionally signed digit string. -/
def parseExpPart : List Nat → Option Int
  | [] => some 0
  | c :: r =>
    if c = 101 ∨ c = 69 then
      let p := stripSign r
      if p.2.isEmpty = false ∧ p.2.all isDigitCp then
        some (if p.1 then -(digitsToNat p.2 : Int) else (digitsToNat p.2 : Int))
      else none
    else none

/-- Value of an unsigned decimal float literal:
`digit* [. digit*] [(e|E) sign? digit+]` with at least one digit in the
mantissa. -/
def decimalVal (cs : List Nat) : Option F64 :=
  let ip := cs.takeWhile isDigitCp
  let r1 := cs.dropWhile isDigitCp
  match r1 with
  | 46 :: r2 =>
    let fp := r2.takeWhile isDigitCp
    let r3 := r2.dropWhile isDigitCp
    if ip.isEmpty ∧ fp.isEmpty then none
    else
      (parseExpPart r3).map
        (fun e =>
          applyExp ((F64.ofNat (digitsToNat ip)).add
            ((F64.ofNat (digitsToNat fp)).div (F64.pow10 fp.length))) e)
  | _ =>
    if ip.isEmpty then none
    else (parseExpPart r1).map (fun e => applyExp (F64.ofNat (digitsToNat ip)) e)

/-- Model of `from_str::<f64>` on decoded code points (finite values only). -/
def f64FromCp (cs : List Nat) : Option F64 :=
  let p := stripSign cs
  (decimalVal p.2).map (fun q => if p.1 then q.neg else q)

/-- Model of `from_bytes::<i64>`: UTF-8 decode, then integer parse. -/
def parseI64 (sample : ByteStr) : Option Int := (utf8Decode sample).bind i64FromCp

/-- Model of `from_bytes::<f64>`: UTF-8 decode, then float parse. -/
def parseF64 (sample : ByteStr) : Option F64 := (utf8Decode sample).bind f64FromCp

/-- The inferred kind of a column (`enum FieldType`). -/
inductive FieldType where
  | TUnknown
  | TNull
  | TUnicode
  | TFloat
  | TInteger
deriving DecidableEq, Fintype

/-- `FieldType::from_sample`: empty sample is null; undecodable bytes are
unknown; otherwise try integer, then float, and fall back to text. -/
def FieldType.from_sample (sample : ByteStr) : FieldType :=
  if sample.isEmpty then .TNull
  else
    match utf8Decode sample with
    | none => .TUnknown
    | some cps =>
      if (i64FromCp cps).isSome then .TInteger
      else if (f64FromCp cps).isSome then .TFloat
      else .TUnicode

/-- `impl Commute for FieldType`: the join of the type lattice.  The match
arms are those of the source, in source order (first match wins). -/
def FieldType.merge (a b : FieldType) : FieldType :=
  match a, b with
  | .TUnicode, .TUnicode => .TUnicode
  | .TFloat, .TFloat => .TFloat
  | .TInteger, .TInteger => .TInteger
  | .TNull, x => x
  | x, .TNull => x
  | .TUnknown, _ => .TUnknown
  | _, .TUnknown => .TUnknown
  | .TFloat, .TInteger => .TFloat
  | .TInteger, .TFloat => .TFloat
  | .TUnicode, .TFloat => .TUnicode
  | .TFloat, .TUnicode => .TUnicode
  | .TUnicode, .TInteger => .TUnicode
  | .TInteger, .TUnicode => .TUnicode

/-- `FieldType::is_number`. -/
def FieldType.is_number (t : FieldType) : Bool := t = .TFloat || t = .TInteger

/-- `FieldType::is_null`. -/
def FieldType.is_null (t : FieldType) : Bool := t = .TNull

/-- `impl Default for FieldType`: the most specific type. -/
def FieldType.default : FieldType := .TInteger

/-- `impl fmt::Show for FieldType`: the rendered type name. -/
def FieldType.display : FieldType → String
  | .TUnknown => "Unknown"
  | .TNull => "NULL"
  | .TUnicode => "Unicode"
  | .TFloat => "Float"
  | .TInteger => "Integer"

/-- Modelled from the spec: `stats::MinMax` (external `stats` crate, source
not in this tree) — an elementwise min/max tracker over an ordering given as
a boolean `le`. -/
structure MinMax (α : Type) where
  min : Option α
  max : Option α
deriving DecidableEq

/-- Modelled from the spec: the empty `MinMax` tracker. -/
def MinMax.init : MinMax α := ⟨none, none⟩

/-- Modelled from the spec: `MinMax::add` updates both bounds with the new
sample. -/
def MinMax.add (le : α → α → Bool) (m : MinMax α) (x : α) : MinMax α :=
  { min := some (match m.min with
      | none => x
      | some y => if le x y then x else y)
  , max := some (match m.max with
      | none => x
      | some y => if le x y then y else x) }

/-- Modelled from the spec: `MinMax::merge` is the elementwise min/max union
of the two trackers. -/
def MinMax.merge (le : α → α → Bool) (a b : MinMax α) : MinMax α :=
  { min := match a.min, b.min with
      | none, o => o
      | some x, none => some x
      | some x, some y => some (if le x y then x else y)
  , max := match a.max, b.max with
      | none, o => o
      | some x, none => some x
      | some x, some y => some (if le x y then y else x) }

/-- Modelled from the spec: `stats::OnlineStats` (external `stats` crate,
source not in this tree) — count, running mean and running sum of squared
deviations, updated with the numerically stable single-pass (Welford) rule;
`nullCount` is the extra null-inclusive population counter, which per the
spec is the only thing `add_null` touches. -/
structure OnlineStats where
  size : Nat
  nullCount : Nat
  mean : F64
  q : F64
deriving DecidableEq

/-- Modelled from the spec: the empty online aggregator. -/
def OnlineStats.init : OnlineStats := ⟨0, 0, F64.ofNat 0, F64.ofNat 0⟩

/-- Modelled from the spec: `OnlineStats::add`, the stable single-pass
update rule. -/
def OnlineStats.add (s : OnlineStats) (x : F64) : OnlineStats :=
  let n := F64.ofNat (s.size + 1)
  let delta := x.sub s.mean
  let mean := s.mean.add (delta.div n)
  { size := s.size + 1, nullCount := s.nullCount, mean := mean
  , q := s.q.add (delta.mul (x.sub mean)) }

/-- Modelled from the spec: `OnlineStats::add_null` increments only the
null-inclusive population counter and never perturbs mean or variance. -/
def OnlineStats.addNull (s : OnlineStats) : OnlineStats :=
  { s with nullCount := s.nullCount + 1 }

/-- Modelled from the spec: `OnlineStats::merge`, the parallel-combination
identity — the weighted mean plus a cross term proportional to the squared
difference of the means. -/
def OnlineStats.merge (a b : OnlineStats) : OnlineStats :=
  let n := F64.ofNat (a.size + b.size)
  let d := b.mean.sub a.mean
  { size := a.size + b.size
  , nullCount := a.nullCount + b.nullCount
  , mean := (((F64.ofNat a.size).mul a.mean).add ((F64.ofNat b.size).mul b.mean)).div n
  , q := (a.q.add b.q).add
      ((((d.mul d).mul (F64.ofNat a.size)).mul (F64.ofNat b.size)).div n) }

/-- Modelled from the spec: `OnlineStats::variance`, population semantics
(divide by N). -/
def OnlineStats.variance (s : OnlineStats) : F64 := s.q.div (F64.ofNat s.size)

/-- Modelled from the spec: `Unsorted::add` (external `stats` crate) — the
exact sample buffer appends unconditionally. -/
def Unsorted.add (l : List α) (x : α) : List α := l ++ [x]

/-- Modelled from the spec: `Unsorted::merge` is buffer concatenation. -/
def Unsorted.merge (a b : List α) : List α := a ++ b

/-- Modelled from the spec: `Unsorted::cardinality` is the count of distinct
values in the buffer. -/
def Unsorted.cardinality [DecidableEq α] (l : List α) : Nat := l.toFinset.card

/-- The distinct values of a buffer in first-encountered order, with fuel so
that it reduces inside the kernel; supports the spec's tie-breaking rule for
the mode. -/
def firstDedupFuel [DecidableEq α] : Nat → List α → List α
  | 0, _ => []
  | _ + 1, [] => []
  | f + 1, x :: r => x :: firstDedupFuel f (r.filter (fun y => y ≠ x))

/-- The distinct values of a buffer in first-encountered order. -/
def firstDedup [DecidableEq α] (l : List α) : List α := firstDedupFuel l.length l

/-- Modelled from the spec: `Unsorted::mode` — a value with the highest
frequency in the buffer, ties broken by first-encountered-in-buffer order,
`none` if the buffer is empty. -/
def Unsorted.mode [DecidableEq α] (l : List α) : Option α :=
  (firstDedup l).foldl
    (fun acc x =>
      match acc with
      | none => some x
      | some b => if l.count b < l.count x then some x else acc)
    none

/-- Insert into a sorted list of fractions. -/
def insertSorted (x : F64) : List F64 → List F64
  | [] => [x]
  | y :: r => if F64.le x y then x :: y :: r else y :: insertSorted x r

/-- Insertion sort on fractions. -/
def sortF : List F64 → List F64
  | [] => []
  | x :: r => insertSorted x (sortF r)

/-- Modelled from the spec: `Unsorted::median` — the midpoint of the sorted
numeric buffer: the central element for odd length, the average of the two
central elements for even length, `none` if the buffer is empty. -/
def Unsorted.median (l : List F64) : Option F64 :=
  if l.isEmpty then none
  else
    let s := sortF l
    let n := l.length
    if n % 2 = 1 then some (s.getD (n / 2) (F64.ofNat 0))
    else some (((s.getD (n / 2 - 1) (F64.ofNat 0)).add (s.getD (n / 2) (F64.ofNat 0))).div
      (F64.ofNat 2))

/-- `struct WhichStats`: the immutable configuration choosing the active
sub-aggregators. -/
structure WhichStats where
  include_nulls : Bool
  range : Bool
  dist : Bool
  cardinality : Bool
  median : Bool
  mode : Bool
deriving DecidableEq

/-- `impl Commute for WhichStats`: `assert_eq!(*self, other)` — a
configuration mismatch panics, modelled as `none`. -/
def WhichStats.merge (a b : WhichStats) : Option WhichStats :=
  if a = b then some a else none

/-- Modelled from the spec: `impl Commute for Option<T>` in the `stats`
crate — merge the payloads when both sides are present, otherwise keep
whichever is present. -/
def optMerge (f : α → α → α) : Option α → Option α → Option α
  | none, o => o
  | some a, none => some a
  | some a, some b => some (f a b)

/-- One field of the output record, pre-rendering: `Piece.num v` stands for
the decimal text of `v`, `Piece.sqrtNum v` for the text of `sqrt v`
(stddev), `Piece.bytes` for a lossily decoded byte string, `Piece.empty`
for the empty string. -/
inductive Piece where
  | str : String → Piece
  | bytes : ByteStr → Piece
  | num : F64 → Piece
  | sqrtNum : F64 → Piece
  | int : Int → Piece
  | nat : Nat → Piece
  | empty : Piece
deriving DecidableEq

/-- Lexicographic order on byte strings. -/
def bytesLe : ByteStr → ByteStr → Bool
  | [], _ => true
  | _ :: _, [] => false
  | a :: ra, b :: rb => if a < b then true else if a = b then bytesLe ra rb else false

/-- Order on integers, as a boolean. -/
def intLe (a b : Int) : Bool := decide (a ≤ b)

/-- `struct TypedMinMax`: minimum/maximum per domain (byte-string, integer,
float). -/
structure TypedMinMax where
  strings : MinMax ByteStr
  integers : MinMax Int
  floats : MinMax F64
deriving DecidableEq

/-- `impl Default for TypedMinMax`: three empty trackers. -/
def TypedMinMax.init : TypedMinMax := ⟨MinMax.init, MinMax.init, MinMax.init⟩

/-- `TypedMinMax::add`: no-op on the empty sample; always updates the
string tracker; a float sample updates the float tracker and (truncated)
the integer tracker; an integer sample updates only the integer tracker.
The parse `unwrap()`s are modelled with `getD`; claim C8 shows they cannot
fail, and the source's final `_ => unreachable!()` arm (reached only for
`TNull`) is dead by claim C9. -/
def TypedMinMax.add (t : TypedMinMax) (typ : FieldType) (sample : ByteStr) : TypedMinMax :=
  if sample.isEmpty then t
  else
    let t1 : TypedMinMax := { t with strings := t.strings.add bytesLe sample }
    match typ with
    | .TUnicode => t1
    | .TUnknown => t1
    | .TFloat =>
      let n := (parseF64 sample).getD (F64.ofNat 0)
      { t1 with
        floats := t1.floats.add F64.le n,
        integers := t1.integers.add intLe n.trunc }
    | .TInteger =>
      let n := (parseI64 sample).getD 0
      { t1 with integers := t1.integers.add intLe n }
    | .TNull => t1

/-- `impl Commute for TypedMinMax`: merge the three trackers elementwise. -/
def TypedMinMax.merge (a b : TypedMinMax) : TypedMinMax :=
  { strings := a.strings.merge bytesLe b.strings
  , integers := a.integers.merge intLe b.integers
  , floats := a.floats.merge F64.le b.floats }

/-- `TypedMinMax::show`: the bounds of the domain selected by the current
field type.  The source's `_ => unreachable!()` arm (reached only for
`TNull`) is dead by claim C9 and modelled as `none`. -/
def TypedMinMax.display (t : TypedMinMax) (typ : FieldType) : Option (Piece × Piece) :=
  match typ with
  | .TUnicode =>
    match t.strings.min, t.strings.max with
    | some mn, some mx => some (.bytes mn, .bytes mx)
    | _, _ => none
  | .TUnknown =>
    match t.strings.min, t.strings.max with
    | some mn, some mx => some (.bytes mn, .bytes mx)
    | _, _ => none
  | .TInteger =>
    match t.integers.min, t.integers.max with
    | some mn, some mx => some (.int mn, .int mx)
    | _, _ => none
  | .TFloat =>
    match t.floats.min, t.floats.max with
    | some mn, some mx => some (.num mn, .num mx)
    | _, _ => none
  | .TNull => none

/-- `struct Stats`: the per-column aggregate. -/
structure Stats where
  typ : FieldType
  minmax : Option TypedMinMax
  online : Option OnlineStats
  mode : Option (List ByteStr)
  median : Option (List F64)
  which : WhichStats
deriving DecidableEq

/-- `Stats::new`: enable exactly the sub-aggregators implied by the
configuration. -/
def Stats.new (which : WhichStats) : Stats :=
  { typ := FieldType.default
  , minmax := if which.range then some TypedMinMax.init else none
  , online := if which.dist then some OnlineStats.init else none
  , mode := if which.mode || which.cardinality then some [] else none
  , median := if which.median then some [] else none
  , which := which }

/-- `Stats::add`: infer the sample's type, join it into the running type,
then feed the sub-aggregators using the updated running type.  The source's
`TFloat` and `TInteger` arms both parse the sample as `f64`
(`from_bytes::<f64>(sample).unwrap()`, modelled with `getD`; claim C8 shows
the parse cannot fail). -/
def Stats.add (s : Stats) (sample : ByteStr) : Stats :=
  let sample_type := FieldType.from_sample sample
  let typ := s.typ.merge sample_type
  let minmax := s.minmax.map (fun v => v.add typ sample)
  let mode := s.mode.map (fun v => Unsorted.add v sample)
  match typ with
  | .TUnknown => { s with typ := typ, minmax := minmax, mode := mode }
  | .TNull => { s with typ := typ, minmax := minmax, mode := mode }
  | .TUnicode => { s with typ := typ, minmax := minmax, mode := mode }
  | .TFloat =>
    if sample_type.is_null then
      if s.which.include_nulls then
        { s with
          typ := typ, minmax := minmax, mode := mode,
          online := s.online.map OnlineStats.addNull }
      else { s with typ := typ, minmax := minmax, mode := mode }
    else
      let n := (parseF64 sample).getD (F64.ofNat 0)
      { s with
        typ := typ, minmax := minmax, mode := mode,
        median := s.median.map (fun v => Unsorted.add v n),
        online := s.online.map (fun v => v.add n) }
  | .TInteger =>
    if sample_type.is_null then
      if s.which.include_nulls then
        { s with
          typ := typ, minmax := minmax, mode := mode,
          online := s.online.map OnlineStats.addNull }
      else { s with typ := typ, minmax := minmax, mode := mode }
    else
      let n := (parseF64 sample).getD (F64.ofNat 0)
      { s with
        typ := typ, minmax := minmax, mode := mode,
        median := s.median.map (fun v => Unsorted.add v n),
        online := s.online.map (fun v => v.add n) }

/-- Feeding a whole sample sequence into an aggregate, first to last. -/
def Stats.addList (s : Stats) (samples : List ByteStr) : Stats :=
  samples.foldl Stats.add s

/-- The always-succeeding part of `impl Commute for Stats`: merge every
sub-aggregator pairwise. -/
def Stats.mergeT (a b : Stats) : Stats :=
  { typ := a.typ.merge b.typ
  , minmax := optMerge TypedMinMax.merge a.minmax b.minmax
  , online := optMerge OnlineStats.merge a.online b.online
  , mode := optMerge Unsorted.merge a.mode b.mode
  , median := optMerge Unsorted.merge a.median b.median
  , which := a.which }

/-- `impl Commute for Stats`: merge all sub-aggregators; the final
`self.which.merge(other.which)` panics on a configuration mismatch,
modelled as `none`. -/
def Stats.merge (a b : Stats) : Option Stats :=
  if a.which = b.which then some (a.mergeT b) else none

/-- `Stats::to_record`: the ordered output record
(`type, min, max, mean, stddev`, then `median`/`mode`/`cardinality` as
configured), with pushes flattened into list appends. -/
def Stats.to_record (s : Stats) : List Piece :=
  (Piece.str s.typ.display
    :: (match s.minmax.bind (fun mm => mm.display s.typ) with
        | some p => [p.1, p.2]
        | none => [Piece.empty, Piece.empty]))
  ++ (if s.typ.is_number then
        match s.online with
        | some v => [Piece.num v.mean, Piece.sqrtNum v.variance]
        | none => [Piece.empty, Piece.empty]
      else [Piece.empty, Piece.empty])
  ++ (match s.median.bind Unsorted.median with
      | none => if s.which.median then [Piece.empty] else []
      | some v => [Piece.num v])
  ++ (match s.mode with
      | none =>
        (if s.which.mode then [Piece.empty] else [])
          ++ (if s.which.cardinality then [Piece.empty] else [])
      | some v =>
        (if s.which.mode then
          [match Unsorted.mode v with
           | some m => Piece.bytes m
           | none => Piece.str "N/A"]
         else [])
          ++ (if s.which.cardinality then [Piece.nat (Unsorted.cardinality v)] else []))

/-- `Args::njobs`: the jobs flag, or the number of detected CPUs (passed in
as a parameter of the model) when the flag is 0. -/
def njobs (flag_jobs ncpus : Nat) : Nat := if flag_jobs = 0 then ncpus else flag_jobs

/-- The chunk size of `Args::parallel_stats`:
`idx.count() as uint / self.njobs()` — integer (floor) division. -/
def chunk_size (rowCount w : Nat) : Nat := rowCount / w

/-- Modelled from the spec: `util::num_of_chunks` (`src/util.rs` is not in
this tree) — the number of `chunk_size`-row chunks covering `nitems` rows,
`ceil(nitems / chunkSize)`. -/
def num_of_chunks (nitems chunkSize : Nat) : Nat := (nitems + chunkSize - 1) / chunkSize

/-- The rows consumed by worker `i`: seek to row offset `i * chunkSize`,
then take `chunkSize` rows. -/
def workerRows (rows : List α) (chunkSize i : Nat) : List α :=
  (rows.drop (i * chunkSize)).take chunkSize

/-- The claim's reading of type inference: empty is null, else integer,
else float, else valid text, else unknown. -/
def specInfer (sample : ByteStr) : FieldType :=
  if sample.isEmpty then .TNull
  else if (parseI64 sample).isSome then .TInteger
  else if (parseF64 sample).isSome then .TFloat
  else if (utf8Decode sample).isSome then .TUnicode
  else .TUnknown

/-- The aggregates reachable from `Stats::new` by `add` and by successful
`merge`. -/
inductive Stats.Reachable : Stats → Prop
  | new (w : WhichStats) : Stats.Reachable (Stats.new w)
  | add (s : Stats) (x : ByteStr) : Stats.Reachable s → Stats.Reachable (s.add x)
  | merge (s t u : Stats) : Stats.Reachable s → Stats.Reachable t →
      Stats.merge s t = some u → Stats.Reachable u

/-- Structural well-formedness of an aggregate: each sub-aggregator is
present exactly when its configuration flag demands it (the spec's
invariant, established by `Stats::new` and preserved by `add`/`merge`), and
the running type is not `TNull` (claim C9). -/
def Stats.WF (s : Stats) : Prop :=
  (s.minmax.isSome = s.which.range)
  ∧ (s.online.isSome = s.which.dist)
  ∧ (s.mode.isSome = (s.which.mode || s.which.cardinality))
  ∧ (s.median.isSome = s.which.median)
  ∧ s.typ ≠ .TNull

/-- The output record as described by claim C2, with the empty-buffer
rendering amended to what the source does: a configured median with an
empty buffer renders as the empty string, a configured mode with an empty
buffer renders as `"N/A"`, a configured cardinality of an empty buffer
renders as `0`. -/
def Stats.specRecord (s : Stats) : List Piece :=
  let mm : Piece × Piece :=
    match s.minmax.bind (fun v => v.display s.typ) with
    | some p => p
    | none => (Piece.empty, Piece.empty)
  let dist : Piece × Piece :=
    if s.typ = .TInteger ∨ s.typ = .TFloat then
      match s.online with
      | some v => (Piece.num v.mean, Piece.sqrtNum v.variance)
      | none => (Piece.empty, Piece.empty)
    else (Piece.empty, Piece.empty)
  [Piece.str s.typ.display, mm.1, mm.2, dist.1, dist.2]
  ++ (if s.which.median then
        [match s.median.bind Unsorted.median with
         | some m => Piece.num m
         | none => Piece.empty]
      else [])
  ++ (if s.which.mode then
        [match s.mode with
         | some buf =>
           match Unsorted.mode buf with
           | some m => Piece.bytes m
           | none => Piece.str "N/A"
         | none => Piece.empty]
      else [])
  ++ (if s.which.cardinality then
        [match s.mode with
         | some buf => Piece.nat (Unsorted.cardinality buf)
         | none => Piece.empty]
      else [])

/-- The components of an aggregate that empty (null) samples must not
affect: running type, configuration, range tracker, median buffer, and the
mean/variance-determining part of the online aggregator (size, mean, sum of
squared deviations — the null-inclusive population counter excluded). -/
def Stats.obsView (s : Stats) :
    FieldType × WhichStats × Option TypedMinMax × Option (List F64)
      × Option (Nat × F64 × F64) :=
  (s.typ, s.which, s.minmax, s.median, s.online.map (fun v => (v.size, v.mean, v.q)))

/-- Joining `TNull` on the right leaves the type unchanged. -/
theorem FieldType.merge_tnull_right (a : FieldType) : a.merge .TNull = a := by
  cases a <;> rfl

/-- The join is `TNull` only when both operands are. -/
theorem FieldType.merge_eq_tnull_iff (a b : FieldType) :
    a.merge b = .TNull ↔ a = .TNull ∧ b = .TNull := by
  revert a b; decide

/-- A non-empty sample never infers as `TNull`. -/
theorem FieldType.from_sample_ne_tnull (sample : ByteStr) (h : sample ≠ []) :
    FieldType.from_sample sample ≠ .TNull := by
  unfold FieldType.from_sample
  have he : sample.isEmpty = false := by
    cases sample with
    | nil => exact absurd rfl h
    | cons a r => rfl
  rw [he]
  simp only [Bool.false_eq_true, if_false]
  cases utf8Decode sample with
  | none => simp
  | some cps =>
    by_cases h1 : (i64FromCp cps).isSome <;> by_cases h2 : (f64FromCp cps).isSome <;>
      simp [h1, h2]

/-- `Stats::add` updates the running type by joining in the sample's
inferred type. -/
theorem Stats.add_typ (s : Stats) (x : ByteStr) :
    (s.add x).typ = s.typ.merge (FieldType.from_sample x) := by
  cases ht : s.typ.merge (FieldType.from_sample x) <;>
    simp only [Stats.add, ht] <;>
    first
      | rfl
      | (split <;> (try split) <;> rfl)

/-- Claim C4: the `FieldType` join (`impl Commute for FieldType`) is
commutative, associative and idempotent; `TNull` is a left identity and
`TUnknown` is left absorbing. -/
theorem c4_join_lattice :
    (∀ a b : FieldType, a.merge b = b.merge a)
    ∧ (∀ a b c : FieldType, (a.merge b).merge c = a.merge (b.merge c))
    ∧ (∀ a : FieldType, a.merge a = a)
    ∧ (∀ a : FieldType, FieldType.TNull.merge a = a)
    ∧ (∀ a : FieldType, FieldType.TUnknown.merge a = .TUnknown) := by
  refine ⟨?_, ?_, ?_, ?_, ?_⟩ <;> decide

/-- Claim C5: `FieldType::from_sample` realizes the ordered fallback
`Null` / `Integer` / `Float` / `Unicode` / `Unknown` of the claim (the
source checks text validity before the numeric parses, but a sample that is
not valid text cannot parse as a number, so the orders agree). -/
theorem c5_infer_order (sample : ByteStr) :
    FieldType.from_sample sample = specInfer sample := by
  unfold FieldType.from_sample specInfer parseI64 parseF64
  cases h : utf8Decode sample <;> simp [h]

/-- Claim C6: `Stats::merge` fails (the `assert_eq!` in
`impl Commute for WhichStats` panics) exactly when the two configurations
differ; equal configurations always merge. -/
theorem c6_config_mismatch (a b : Stats) :
    Stats.merge a b = none ↔ a.which ≠ b.which := by
  unfold Stats.merge
  split <;> simp_all

/-- Adding only empty samples never changes the running type. -/
theorem Stats.addList_typ_of_all_nil (xs : List ByteStr) :
    ∀ s : Stats, (∀ x ∈ xs, x = ([] : ByteStr)) → (Stats.addList s xs).typ = s.typ := by
  induction xs with
  | nil => intro s _; rfl
  | cons y ys ih =>
    intro s h
    have hy : y = ([] : ByteStr) := h y (List.mem_cons_self y ys)
    have hs : Stats.addList s (y :: ys) = Stats.addList (s.add y) ys := rfl
    rw [hs, ih (s.add y) (fun x hx => h x (List.mem_cons_of_mem y hx)), Stats.add_typ, hy]
    have hnull : FieldType.from_sample [] = .TNull := rfl
    rw [hnull, FieldType.merge_tnull_right]

/-- Claim C7: an aggregate that saw zero samples, or only empty (null)
samples, finalizes with field type `Integer`: the initial type is `Integer`
and joining `TNull` leaves it unchanged. -/
theorem c7_all_null_integer (w : WhichStats) (xs : List ByteStr)
    (h : ∀ x ∈ xs, x = ([] : ByteStr)) :
    (Stats.addList (Stats.new w) xs).typ = .TInteger
    ∧ ((Stats.addList (Stats.new w) xs).to_record).head? = some (Piece.str "Integer") := by
  have ht : (Stats.addList (Stats.new w) xs).typ = .TInteger :=
    Stats.addList_typ_of_all_nil xs (Stats.new w) h
  refine ⟨ht, ?_⟩
  unfold Stats.to_record
  rw [ht]
  rfl

/-- Witness for C7 at a concrete input: two empty samples. -/
theorem c7_witness :
    (Stats.addList (Stats.new ⟨false, true, true, true, true, true⟩) [[], []]).typ = .TInteger
    ∧ ((Stats.addList (Stats.new ⟨false, true, true, true, true, true⟩)
        [[], []]).to_record).head? = some (Piece.str "Integer") :=
  c7_all_null_integer ⟨false, true, true, true, true, true⟩ [[], []] (by decide)

/-- `takeWhile` keeps an all-satisfying list whole. -/
theorem takeWhile_of_all (p : Nat → Bool) :
    ∀ l : List Nat, l.all p = true → l.takeWhile p = l := by
  intro l h
  induction l with
  | nil => rfl
  | cons x r ih =>
    simp only [List.all_cons, Bool.and_eq_true] at h
    simp [List.takeWhile_cons, h.1, ih h.2]

/-- `dropWhile` empties an all-satisfying list. -/
theorem dropWhile_of_all (p : Nat → Bool) :
    ∀ l : List Nat, l.all p = true → l.dropWhile p = [] := by
  intro l h
  induction l with
  | nil => rfl
  | cons x r ih =>
    simp only [List.all_cons, Bool.and_eq_true] at h
    simp [List.dropWhile_cons, h.1, ih h.2]

/-- Any code-point string accepted by the integer parser is accepted by the
float parser (a signed digit string is a valid float literal). -/
theorem i64_to_f64 (cs : List Nat) (h : (i64FromCp cs).isSome = true) :
    (f64FromCp cs).isSome = true := by
  rcases hp : stripSign cs with ⟨sg, ds⟩
  simp only [i64FromCp, hp] at h
  by_cases he : ds.isEmpty
  · simp [he] at h
  · by_cases ha : ds.all isDigitCp
    · simp only [f64FromCp, decimalVal, hp]
      rw [takeWhile_of_all isDigitCp ds ha, dropWhile_of_all isDigitCp ds ha]
      simp [he, parseExpPart]
    · simp [he, ha] at h

/-- A sample inferred as `TInteger` parses as `i64` and as `f64`. -/
theorem from_sample_tinteger (sample : ByteStr)
    (h : FieldType.from_sample sample = .TInteger) :
    (parseI64 sample).isSome = true ∧ (parseF64 sample).isSome = true := by
  unfold FieldType.from_sample at h
  by_cases he : sample.isEmpty
  · simp [he] at h
  · cases hd : utf8Decode sample with
    | none => simp [he, hd] at h
    | some cps =>
      simp only [he, hd, Bool.false_eq_true, if_false] at h
      by_cases hi : (i64FromCp cps).isSome
      · constructor
        · simpa [parseI64, hd] using hi
        · have := i64_to_f64 cps hi
          simpa [parseF64, hd] using this
      · by_cases hf : (f64FromCp cps).isSome <;> simp [hi, hf] at h

/-- A sample inferred as `TFloat` parses as `f64`. -/
theorem from_sample_tfloat (sample : ByteStr)
    (h : FieldType.from_sample sample = .TFloat) :
    (parseF64 sample).isSome = true := by
  unfold FieldType.from_sample at h
  by_cases he : sample.isEmpty
  · simp [he] at h
  · cases hd : utf8Decode sample with
    | none => simp [he, hd] at h
    | some cps =>
      simp only [he, hd, Bool.false_eq_true, if_false] at h
      by_cases hi : (i64FromCp cps).isSome
      · simp [hi] at h
      · by_cases hf : (f64FromCp cps).isSome
        · simpa [parseF64, hd] using hf
        · simp [hi, hf] at h

/-- Claim C8: the contract-violation branches are unreachable.  For any
running type and any non-empty sample, if the type after joining the
sample's inferred type is `TFloat` or `TInteger` then the sample parses as
`f64` (so the `unwrap()`s in `Stats::add` and in the `TFloat` arm of
`TypedMinMax::add` cannot fail), and if that type is `TInteger` the sample
also parses as `i64` (the `unwrap()` in the `TInteger` arm of
`TypedMinMax::add` cannot fail). -/
theorem c8_numeric_parse_safe (t : FieldType) (sample : ByteStr) (hne : sample ≠ [])
    (h : t.merge (FieldType.from_sample sample) = .TFloat
      ∨ t.merge (FieldType.from_sample sample) = .TInteger) :
    (parseF64 sample).isSome = true
    ∧ (t.merge (FieldType.from_sample sample) = .TInteger →
        (parseI64 sample).isSome = true) := by
  have hnn := FieldType.from_sample_ne_tnull sample hne
  have key : ∀ a b : FieldType, (a.merge b = .TFloat ∨ a.merge b = .TInteger) →
      b ≠ .TNull → b = .TInteger ∨ b = .TFloat := by decide
  have key2 : ∀ a b : FieldType, a.merge b = .TInteger → b ≠ .TNull → b = .TInteger := by
    decide
  rcases key t _ h hnn with hI | hF
  · obtain ⟨h1, h2⟩ := from_sample_tinteger sample hI
    exact ⟨h2, fun _ => h1⟩
  · refine ⟨from_sample_tfloat sample hF, fun hInt => ?_⟩
    have hI := key2 t _ hInt hnn
    rw [hI] at hF
    exact absurd hF (by decide)

/-- Witness for C8 at a concrete input: running type `TInteger` and the
sample `"2"`. -/
theorem c8_witness :
    (parseF64 [50]).isSome = true
    ∧ (FieldType.TInteger.merge (FieldType.from_sample [50]) = .TInteger →
        (parseI64 [50]).isSome = true) :=
  c8_numeric_parse_safe .TInteger [50] (by decide) (by decide)

/-- Claim C9: no aggregate reachable by any sequence of `add` and `merge`
from `Stats::new` ever has running type `TNull` — the initial type is
`TInteger` and the join never produces `TNull` from a non-`TNull` operand.
Hence the `TNull` arm of the match in `Stats::add` and the
`_ => unreachable!()` arm of `TypedMinMax::show` (reached only for `TNull`)
are dead, and `finalize` never reports type `NULL`. -/
theorem c9_never_null (s : Stats) (h : Stats.Reachable s) : s.typ ≠ .TNull := by
  have key : ∀ a b : FieldType, a ≠ .TNull → a.merge b ≠ .TNull := by decide
  induction h with
  | new w =>
    show FieldType.default ≠ .TNull
    decide
  | add s x hs ih =>
    rw [Stats.add_typ]
    exact key _ _ ih
  | merge s t u hs ht hm ihs iht =>
    have hu : u = s.mergeT t := by
      unfold Stats.merge at hm
      split at hm
      · exact (Option.some.inj hm).symm
      · cases hm
    rw [hu]
    exact key _ _ ihs

/-- Witness for C9 at a concrete input: a freshly constructed aggregate. -/
theorem c9_witness : (Stats.new ⟨false, true, true, false, false, false⟩).typ ≠ .TNull :=
  c9_never_null _ (Stats.Reachable.new _)

/-- Splitting a list into `N` consecutive `cs`-sized chunks covers it when
`N * cs` bounds its length. -/
theorem chunks_join_aux {α : Type} (cs : Nat) :
    ∀ (N : Nat) (l : List α), l.length ≤ N * cs →
      ((List.range N).map (fun i => (l.drop (i * cs)).take cs)).flatten = l := by
  intro N
  induction N with
  | zero =>
    intro l h
    rw [Nat.zero_mul, Nat.le_zero] at h
    rw [List.eq_nil_of_length_eq_zero h]
    rfl
  | succ N ih =>
    intro l h
    rw [List.range_succ_eq_map, List.map_cons, List.map_map, List.flatten_cons]
    have hpt : ((fun i => (l.drop (i * cs)).take cs) ∘ Nat.succ)
        = fun i => (((l.drop cs).drop (i * cs)).take cs) := by
      funext i
      simp only [Function.comp_apply, List.drop_drop]
      rw [Nat.succ_mul, Nat.add_comm]
    rw [hpt, ih (l.drop cs) ?_]
    · rw [Nat.zero_mul, List.drop_zero, List.take_append_drop]
    · rw [List.length_drop]
      rw [Nat.succ_mul] at h
      omega

/-- Claim C3 (amended): in the parallel strategy the chunk size is the
floor `R / W` (the claim's ceiling formula is refuted by
`c3_counterexample`), the chunk count is `ceil(R / chunk_size)` (the
spec-modelled `util::num_of_chunks`), worker `i` seeks to row offset
`i * chunk_size` and consumes `min(chunk_size, R - i * chunk_size)` rows —
exactly `chunk_size` for every non-final chunk — and the workers' chunks
exactly cover the rows.  `W` comes from the jobs flag, or is the number of
detected CPUs when the flag is 0.  Requires `W ≤ R`; otherwise the chunk
size is 0 and the source divides by zero. -/
theorem c3_chunking {α : Type} (rows : List α) (W j ncpus : Nat)
    (hW : 0 < W) (hWR : W ≤ rows.length) :
    (njobs 0 ncpus = ncpus ∧ (j ≠ 0 → njobs j ncpus = j))
    ∧ chunk_size rows.length W = rows.length / W
    ∧ num_of_chunks rows.length (chunk_size rows.length W)
        = (rows.length + chunk_size rows.length W - 1) / chunk_size rows.length W
    ∧ ((List.range (num_of_chunks rows.length (chunk_size rows.length W))).map
        (fun i => workerRows rows (chunk_size rows.length W) i)).flatten = rows
    ∧ (∀ i, (workerRows rows (chunk_size rows.length W) i).length
        = min (chunk_size rows.length W) (rows.length - i * chunk_size rows.length W))
    ∧ (∀ i, i + 1 < num_of_chunks rows.length (chunk_size rows.length W) →
        (workerRows rows (chunk_size rows.length W) i).length
          = chunk_size rows.length W) := by
  set R := rows.length with hR
  set cs := chunk_size R W with hcsdef
  have hcs : 0 < cs := (Nat.one_le_div_iff hW).mpr hWR
  have hR1 : 1 ≤ R := le_trans hW hWR
  have hN : num_of_chunks R cs = (R - 1) / cs + 1 := by
    unfold num_of_chunks
    have : R + cs - 1 = (R - 1) + cs := by omega
    rw [this, Nat.add_div_right _ hcs]
  have hdm := Nat.div_add_mod (R - 1) cs
  have hml : (R - 1) % cs < cs := Nat.mod_lt _ hcs
  have hcover : R ≤ num_of_chunks R cs * cs := by
    rw [hN, Nat.add_mul, Nat.one_mul, Nat.mul_comm]
    omega
  refine ⟨⟨rfl, fun hj => by simp [njobs, hj]⟩, rfl, rfl, ?_, ?_, ?_⟩
  · exact chunks_join_aux cs (num_of_chunks R cs) rows hcover
  · intro i
    unfold workerRows
    rw [List.length_take, List.length_drop]
  · intro i hi
    unfold workerRows
    rw [List.length_take, List.length_drop]
    have hi2 : i + 1 ≤ (R - 1) / cs := by omega
    have : (i + 1) * cs ≤ (R - 1) / cs * cs := Nat.mul_le_mul_right cs hi2
    rw [Nat.add_mul, Nat.one_mul] at this
    rw [Nat.mul_comm ((R - 1) / cs) cs] at this
    omega

/-- Counterexample to claim C3 as stated: with 5 indexed rows and 2
workers the source computes chunk size `5 / 2 = 2`, not the claimed
`ceil(5 / 2) = 3`. -/
theorem c3_counterexample :
    chunk_size 5 2 = 2 ∧ (5 + 2 - 1) / 2 = 3 ∧ chunk_size 5 2 ≠ (5 + 2 - 1) / 2 := by decide

/-- Witness for C3 at a concrete input: 5 rows, 2 workers. -/
theorem c3_witness :
    ((njobs 0 4 = 4 ∧ ((2 : Nat) ≠ 0 → njobs 2 4 = 2))
    ∧ chunk_size (List.length [10, 11, 12, 13, 14]) 2 = List.length [10, 11, 12, 13, 14] / 2
    ∧ num_of_chunks (List.length [10, 11, 12, 13, 14])
        (chunk_size (List.length [10, 11, 12, 13, 14]) 2)
        = (List.length [10, 11, 12, 13, 14] + chunk_size (List.length [10, 11, 12, 13, 14]) 2 - 1)
          / chunk_size (List.length [10, 11, 12, 13, 14]) 2
    ∧ ((List.range (num_of_chunks (List.length [10, 11, 12, 13, 14])
          (chunk_size (List.length [10, 11, 12, 13, 14]) 2))).map
        (fun i => workerRows [10, 11, 12, 13, 14] (chunk_size (List.length [10, 11, 12, 13, 14]) 2) i)).flatten
        = [10, 11, 12, 13, 14]
    ∧ (∀ i, (workerRows [10, 11, 12, 13, 14] (chunk_size (List.length [10, 11, 12, 13, 14]) 2) i).length
        = min (chunk_size (List.length [10, 11, 12, 13, 14]) 2)
            (List.length [10, 11, 12, 13, 14] - i * chunk_size (List.length [10, 11, 12, 13, 14]) 2))
    ∧ (∀ i, i + 1 < num_of_chunks (List.length [10, 11, 12, 13, 14])
          (chunk_size (List.length [10, 11, 12, 13, 14]) 2) →
        (workerRows [10, 11, 12, 13, 14] (chunk_size (List.length [10, 11, 12, 13, 14]) 2) i).length
          = chunk_size (List.length [10, 11, 12, 13, 14]) 2)) :=
  c3_chunking [10, 11, 12, 13, 14] 2 2 4 (by decide) (by decide)

/-- Claim C2 (amended): on well-formed aggregates, `Stats::to_record`
produces exactly the record described by the claim — fields in the fixed
order `[type, min, max, mean, stddev, median?, mode?, cardinality?]`, the
optional fields present exactly when configured, mean and stddev empty
whenever the final type is not `Integer` or `Float`, an empty configured
median rendering as the empty string — except that (as `c2_counterexample`
shows) an empty configured mode renders as `"N/A"` and an empty configured
cardinality as `0`, not as empty strings. -/
theorem c2_record_shape (s : Stats) (h : s.WF) : s.to_record = s.specRecord := by
  obtain ⟨hmm, hon, hmo, hme, hty⟩ := h
  have hnum : (s.typ.is_number = true) ↔ (s.typ = .TInteger ∨ s.typ = .TFloat) := by
    cases s.typ <;> simp [FieldType.is_number]
  unfold Stats.to_record Stats.specRecord
  rcases hx : s.minmax.bind (fun v => v.display s.typ) with _ | p <;>
    rcases hmd : s.median with _ | mbuf <;>
      rcases hmo2 : s.mode with _ | obuf <;>
        rcases hon2 : s.online with _ | ov <;>
          by_cases hn : s.typ.is_number = true <;>
            simp_all <;>
              cases hcm : s.which.mode <;>
                cases hcc : s.which.cardinality <;>
                  simp_all <;>
                    (rcases hum : Unsorted.median mbuf with _ | v <;> simp [hum])

/-- Counterexample to claim C2 as stated: on the well-formed aggregate with
everything enabled and zero samples (all buffers empty), `to_record`
renders the mode field as `"N/A"` and the cardinality field as `0` — not
as empty strings as the claim says (the empty configured median does render
as the empty string). -/
theorem c2_counterexample :
    (Stats.new ⟨false, true, true, true, true, true⟩).WF
    ∧ Stats.to_record (Stats.new ⟨false, true, true, true, true, true⟩) =
        [Piece.str "Integer", Piece.empty, Piece.empty, Piece.num (F64.ofNat 0),
         Piece.sqrtNum (F64.ofNat 0), Piece.empty, Piece.str "N/A", Piece.nat 0]
    ∧ Piece.str "N/A" ≠ Piece.empty ∧ Piece.nat 0 ≠ Piece.empty := by
  refine ⟨?_, by decide, by decide, by decide⟩
  refine ⟨by decide, by decide, by decide, by decide, by decide⟩

/-- Witness for C2 at a concrete input: one text sample and one empty
sample under an all-enabled configuration. -/
theorem c2_witness :
    Stats.to_record
        (Stats.addList (Stats.new ⟨false, true, true, true, true, true⟩) [[49, 97], []])
      = Stats.specRecord
          (Stats.addList (Stats.new ⟨false, true, true, true, true, true⟩) [[49, 97], []]) :=
  c2_record_shape _ ⟨by decide, by decide, by decide, by decide, by decide⟩

/-- `OnlineStats::add` acts on the (size, mean, q) view, independently of
the null counter. -/
theorem onlineCore_map_add (o o' : Option OnlineStats) (n : F64)
    (h : o.map (fun v => (v.size, v.mean, v.q)) = o'.map (fun v => (v.size, v.mean, v.q))) :
    o.map ((fun v : OnlineStats => (v.size, v.mean, v.q)) ∘ fun v => v.add n)
      = o'.map ((fun v : OnlineStats => (v.size, v.mean, v.q)) ∘ fun v => v.add n) := by
  cases o <;> cases o' <;> simp_all [OnlineStats.add, Function.comp]

/-- `OnlineStats::add_null` does not change the (size, mean, q) view. -/
theorem onlineCore_map_addNull (o : Option OnlineStats) :
    o.map ((fun v : OnlineStats => (v.size, v.mean, v.q)) ∘ OnlineStats.addNull)
      = o.map (fun v => (v.size, v.mean, v.q)) := by
  cases o <;> rfl

/-- Equal (size, mean, q) views give equal mean and variance readouts. -/
theorem mean_variance_of_core_eq (o o' : Option OnlineStats)
    (h : o.map (fun v => (v.size, v.mean, v.q)) = o'.map (fun v => (v.size, v.mean, v.q))) :
    o.map OnlineStats.mean = o'.map OnlineStats.mean
    ∧ o.map OnlineStats.variance = o'.map OnlineStats.variance := by
  cases o <;> cases o' <;> simp_all [OnlineStats.variance]

/-- `TypedMinMax::add` ignores the empty sample. -/
theorem TypedMinMax.add_nil (v : TypedMinMax) (t : FieldType) :
    v.add t [] = v := rfl

/-- Adding an empty sample changes nothing observable (only the mode buffer
and the null counter). -/
theorem Stats.obsView_add_nil (s : Stats) : (s.add []).obsView = s.obsView := by
  have hmapmm : ∀ (o : Option TypedMinMax) t, o.map (fun v => v.add t []) = o := by
    intro o t; cases o <;> simp [TypedMinMax.add_nil]
  have hnull : FieldType.from_sample [] = .TNull := rfl
  simp only [Stats.obsView, Prod.mk.injEq]
  cases ht : s.typ <;>
    simp only [Stats.add, hnull, FieldType.merge_tnull_right, ht] <;>
      (try split) <;>
        (try split) <;>
          simp_all [hmapmm, onlineCore_map_addNull, FieldType.is_null]

/-- Aggregates with equal observable views stay observably equal under
`add` (the mode buffer and null counter are unconstrained). -/
theorem Stats.obsView_add (s t : Stats) (x : ByteStr) (h : s.obsView = t.obsView) :
    (s.add x).obsView = (t.add x).obsView := by
  simp only [Stats.obsView, Prod.mk.injEq] at h ⊢
  obtain ⟨h1, h2, h3, h4, h5⟩ := h
  simp only [Stats.add, h1, h2, h3, h4]
  cases ht : t.typ.merge (FieldType.from_sample x) <;>
    simp only [ht] <;>
      (try split) <;>
        (try split) <;>
          simp_all [onlineCore_map_addNull] <;>
            exact onlineCore_map_add s.online t.online _ h5

/-- Dropping the empty samples from the input changes nothing observable. -/
theorem Stats.addList_filter_obs (xs : List ByteStr) :
    ∀ s t : Stats, s.obsView = t.obsView →
      (Stats.addList s xs).obsView
        = (Stats.addList t (xs.filter (fun y => !y.isEmpty))).obsView := by
  induction xs with
  | nil => intro s t h; exact h
  | cons y ys ih =>
    intro s t h
    by_cases hy : y.isEmpty
    · have hy2 : y = [] := by
        cases y with
        | nil => rfl
        | cons a r => simp [List.isEmpty] at hy
      have hf : (y :: ys).filter (fun z => !z.isEmpty) = ys.filter (fun z => !z.isEmpty) := by
        simp [List.filter_cons, hy]
      rw [hf]
      show (Stats.addList (s.add y) ys).obsView = _
      exact ih (s.add y) t (by rw [hy2]; exact (Stats.obsView_add_nil s).trans h)
    · have hf : (y :: ys).filter (fun z => !z.isEmpty)
          = y :: ys.filter (fun z => !z.isEmpty) := by
        simp [List.filter_cons, hy]
      rw [hf]
      show (Stats.addList (s.add y) ys).obsView = (Stats.addList (t.add y) _).obsView
      exact ih (s.add y) (t.add y) (Stats.obsView_add s t y h)

/-- `Stats::add` appends every sample — empty or not — to the mode buffer
when it is enabled. -/
theorem Stats.add_mode (s : Stats) (x : ByteStr) :
    (s.add x).mode = s.mode.map (fun v => Unsorted.add v x) := by
  cases ht : s.typ.merge (FieldType.from_sample x) <;>
    simp only [Stats.add, ht] <;>
      first
        | rfl
        | (split <;> (try split) <;> rfl)

/-- Feeding a sample sequence appends it, in order, to the mode buffer. -/
theorem Stats.addList_mode (xs : List ByteStr) :
    ∀ s : Stats, (Stats.addList s xs).mode = s.mode.map (fun v => v ++ xs) := by
  induction xs with
  | nil =>
    intro s
    show s.mode = _
    cases s.mode <;> simp
  | cons y ys ih =>
    intro s
    show (Stats.addList (s.add y) ys).mode = _
    rw [ih, Stats.add_mode]
    cases s.mode <;> simp [Unsorted.add]

/-- A column with at least one empty field counts the empty string as one
extra distinct value. -/
theorem cardinality_counts_empty (xs : List ByteStr) (h : [] ∈ xs) :
    Unsorted.cardinality xs = Unsorted.cardinality (xs.filter (fun y => !y.isEmpty)) + 1 := by
  unfold Unsorted.cardinality
  have h1 : (xs.filter (fun y => !y.isEmpty)).toFinset = xs.toFinset.erase ([] : ByteStr) := by
    ext a
    simp only [List.mem_toFinset, List.mem_filter, Finset.mem_erase, Bool.not_eq_true']
    constructor
    · rintro ⟨ha, he⟩
      refine ⟨?_, ha⟩
      intro hcon
      rw [hcon] at he
      exact absurd he (by decide)
    · rintro ⟨hne, ha⟩
      refine ⟨ha, ?_⟩
      cases hae : a.isEmpty
      · rfl
      · exact absurd (by cases a <;> simp_all) hne
  rw [h1, Finset.card_erase_of_mem (by simpa using h)]
  have hpos : 0 < xs.toFinset.card := Finset.card_pos.mpr ⟨[], by simpa using h⟩
  omega

/-- `firstDedupFuel` of the empty buffer is empty for any fuel. -/
theorem firstDedupFuel_nil [DecidableEq α] (n : Nat) :
    firstDedupFuel n ([] : List α) = [] := by
  cases n <;> rfl

/-- A non-empty all-empty-sample buffer has the empty string as its mode. -/
theorem mode_all_nil (xs : List ByteStr) (hne : xs ≠ []) (h : ∀ y ∈ xs, y = ([] : ByteStr)) :
    Unsorted.mode xs = some [] := by
  cases xs with
  | nil => exact absurd rfl hne
  | cons y ys =>
    have hy : y = [] := h y (List.mem_cons_self y ys)
    subst hy
    have hfil : ys.filter (fun z => z ≠ ([] : ByteStr)) = [] := by
      rw [List.filter_eq_nil_iff]
      intro a ha
      have := h a (List.mem_cons_of_mem _ ha)
      simp [this]
    unfold Unsorted.mode firstDedup
    simp only [List.length_cons, firstDedupFuel, hfil, firstDedupFuel_nil]
    rfl

/-- Claim C10: with the mode/cardinality buffer enabled, every sample —
including empty (null) samples — is appended to it, so a column with an
empty field counts the empty string as a distinct value for cardinality and
an all-null column has the empty string as its mode; yet empty samples
leave the range tracker, the median buffer, and the mean/variance readouts
unchanged (they are excluded from range, mean, stddev and median). -/
theorem c10_null_samples (w : WhichStats) (xs : List ByteStr)
    (hen : (w.mode || w.cardinality) = true) (hmem : [] ∈ xs) :
    (Stats.addList (Stats.new w) xs).mode = some xs
    ∧ Unsorted.cardinality xs = Unsorted.cardinality (xs.filter (fun y => !y.isEmpty)) + 1
    ∧ ((∀ y ∈ xs, y = ([] : ByteStr)) → Unsorted.mode xs = some [])
    ∧ (Stats.addList (Stats.new w) xs).minmax
        = (Stats.addList (Stats.new w) (xs.filter (fun y => !y.isEmpty))).minmax
    ∧ (Stats.addList (Stats.new w) xs).median
        = (Stats.addList (Stats.new w) (xs.filter (fun y => !y.isEmpty))).median
    ∧ (Stats.addList (Stats.new w) xs).online.map OnlineStats.mean
        = (Stats.addList (Stats.new w) (xs.filter (fun y => !y.isEmpty))).online.map
            OnlineStats.mean
    ∧ (Stats.addList (Stats.new w) xs).online.map OnlineStats.variance
        = (Stats.addList (Stats.new w) (xs.filter (fun y => !y.isEmpty))).online.map
            OnlineStats.variance := by
  have hobs := Stats.addList_filter_obs xs (Stats.new w) (Stats.new w) rfl
  simp only [Stats.obsView, Prod.mk.injEq] at hobs
  obtain ⟨o1, o2, o3, o4, o5⟩ := hobs
  obtain ⟨hmean, hvar⟩ := mean_variance_of_core_eq _ _ o5
  have hxe : xs ≠ [] := by
    intro hcon
    rw [hcon] at hmem
    cases hmem
  refine ⟨?_, cardinality_counts_empty xs hmem, fun hall => mode_all_nil xs hxe hall,
    o3, o4, hmean, hvar⟩
  rw [Stats.addList_mode]
  simp [Stats.new, hen]

/-- Witness for C10 at a concrete input: samples `""` and `"1"` with mode,
cardinality and median enabled. -/
theorem c10_witness :
    (Stats.addList (Stats.new ⟨false, true, true, true, true, true⟩) [[], [49]]).mode
        = some [[], [49]]
    ∧ Unsorted.cardinality [[], [49]]
        = Unsorted.cardinality (([[], [49]] : List ByteStr).filter (fun y => !y.isEmpty)) + 1
    ∧ ((∀ y ∈ ([[], [49]] : List ByteStr), y = ([] : ByteStr)) →
        Unsorted.mode ([[], [49]] : List ByteStr) = some [])
    ∧ (Stats.addList (Stats.new ⟨false, true, true, true, true, true⟩) [[], [49]]).minmax
        = (Stats.addList (Stats.new ⟨false, true, true, true, true, true⟩)
            (([[], [49]] : List ByteStr).filter (fun y => !y.isEmpty))).minmax
    ∧ (Stats.addList (Stats.new ⟨false, true, true, true, true, true⟩) [[], [49]]).median
        = (Stats.addList (Stats.new ⟨false, true, true, true, true, true⟩)
            (([[], [49]] : List ByteStr).filter (fun y => !y.isEmpty))).median
    ∧ (Stats.addList (Stats.new ⟨false, true, true, true, true, true⟩)
        [[], [49]]).online.map OnlineStats.mean
        = (Stats.addList (Stats.new ⟨false, true, true, true, true, true⟩)
            (([[], [49]] : List ByteStr).filter (fun y => !y.isEmpty))).online.map
              OnlineStats.mean
    ∧ (Stats.addList (Stats.new ⟨false, true, true, true, true, true⟩)
        [[], [49]]).online.map OnlineStats.variance
        = (Stats.addList (Stats.new ⟨false, true, true, true, true, true⟩)
            (([[], [49]] : List ByteStr).filter (fun y => !y.isEmpty))).online.map
              OnlineStats.variance :=
  c10_null_samples ⟨false, true, true, true, true, true⟩ [[], [49]] (by decide) (by decide)

/-- Claim C1 fails on the code (code bug).  Split the sample sequence
`["1.5", "2"]` into the chunks `["1.5"]` and `["2"]` and aggregate each
chunk under the default configuration (range and distribution enabled).
The merge succeeds (equal configurations), but the merged, finalized record
has max `1.5` while the single pass over the whole sequence has max `2`:
in the chunk holding only `"2"` the running type stays `TInteger`, so
`TypedMinMax::add` never feeds the float tracker, while the single pass
processes `"2"` under running type `TFloat` and does.  The spec requires
the two records to be identical. -/
theorem c1_failing_record :
    Stats.merge
        (Stats.addList (Stats.new ⟨false, true, true, false, false, false⟩) [[49, 46, 53]])
        (Stats.addList (Stats.new ⟨false, true, true, false, false, false⟩) [[50]])
      = some ((Stats.addList (Stats.new ⟨false, true, true, false, false, false⟩)
            [[49, 46, 53]]).mergeT
          (Stats.addList (Stats.new ⟨false, true, true, false, false, false⟩) [[50]]))
    ∧ Stats.to_record ((Stats.addList (Stats.new ⟨false, true, true, false, false, false⟩)
          [[49, 46, 53]]).mergeT
        (Stats.addList (Stats.new ⟨false, true, true, false, false, false⟩) [[50]]))
      = [Piece.str "Float", Piece.num ⟨3, 2⟩, Piece.num ⟨3, 2⟩, Piece.num ⟨7, 4⟩,
         Piece.sqrtNum ⟨1, 16⟩]
    ∧ Stats.to_record (Stats.addList (Stats.new ⟨false, true, true, false, false, false⟩)
        [[49, 46, 53], [50]])
      = [Piece.str "Float", Piece.num ⟨3, 2⟩, Piece.num ⟨2, 1⟩, Piece.num ⟨7, 4⟩,
         Piece.sqrtNum ⟨1, 16⟩]
    ∧ Stats.to_record ((Stats.addList (Stats.new ⟨false, true, true, false, false, false⟩)
          [[49, 46, 53]]).mergeT
        (Stats.addList (Stats.new ⟨false, true, true, false, false, false⟩) [[50]]))
      ≠ Stats.to_record (Stats.addList (Stats.new ⟨false, true, true, false, false, false⟩)
          [[49, 46, 53], [50]]) := by
  refine ⟨by decide, by decide, by decide, by decide⟩
